import Mathlib

set_option maxHeartbeats 1000000

/-!
Shallow embedding of the MARF SQLite storage layer
(`src/chainstate/stacks/index/trie_sql.rs`) and of the event dispatcher
(`testnet/src/event_dispatcher.rs`) of the stacks-blockchain repository,
together with theorems settling the specification claims about them.

Conventions of the embedding:
* 32-byte block header hashes, endpoints, txids and asset identifiers are
  abstracted to `Nat`; blob/serialized byte strings to `List Nat`.
* The SQLite tables are lists of rows in insertion order.  SQLite assigns a
  fresh rowid one larger than the largest rowid currently in use (these
  tables have no AUTOINCREMENT), and it picks the fresh rowid *before*
  `OR REPLACE` conflict resolution deletes any conflicting row.
* Rust panics (`unwrap`/`expect`/`panic!`/`unreachable!`) are modelled as
  explicit error values; effects performed before a panic are retained.
* A Rust `HashSet` is modelled by the list of its inserted elements; its
  iteration order is unspecified in Rust, so wherever the code iterates a
  `HashSet` the model takes the order as a parameter ranging over
  permutations of the elements.
-/

deriving instance DecidableEq for Except

namespace TrieSql

/-- Block header hashes are 32-byte values, abstracted to naturals. -/
abbrev BlockHeaderHash := Nat

/-- One row of `marf_data` / `mined_blocks`:
`(block_id INTEGER PRIMARY KEY, block_hash TEXT UNIQUE NOT NULL, data BLOB NOT NULL)`. -/
structure Row where
  block_id : Nat
  block_hash : BlockHeaderHash
  data : List Nat
deriving DecidableEq, Repr

/-- The three tables created by `create_tables_if_needed`. -/
structure DbState where
  marf_data : List Row
  mined_blocks : List Row
  block_extension_locks : List BlockHeaderHash
deriving DecidableEq, Repr

def emptyDb : DbState := ⟨[], [], []⟩

/-- `MAX(block_id)` over a table (0 when empty); SQLite also assigns the next
fresh rowid as this value plus one. -/
def maxRowid (t : List Row) : Nat := t.foldr (fun r m => max r.block_id m) 0

/-- Whether a `block_hash` is present in a table (the UNIQUE-indexed column). -/
def hashPresent (t : List Row) (h : BlockHeaderHash) : Bool :=
  t.any (fun r => r.block_hash == h)

/-- `SELECT data ... WHERE block_hash = ?` against a table. -/
def getBlobByHash (t : List Row) (h : BlockHeaderHash) : Option (List Nat) :=
  (t.find? (fun r => r.block_hash == h)).map (fun r => r.data)

/-- Failure modes of the blob writers.  `duplicate` is the UNIQUE-constraint
violation surfaced by `s.insert(args)?`; `exhaustionPanic` is the
`.expect("EXHAUSTION: ...")` panic raised when the i64 rowid returned by the
insert does not fit in `u32`. -/
inductive TrieError
  | duplicate
  | exhaustionPanic
deriving DecidableEq, Repr

/-- `write_trie_blob`: `INSERT INTO marf_data (block_hash, data) VALUES (?, ?)`.
A duplicate `block_hash` makes the insert itself fail (propagated by `?`);
otherwise the row is inserted with the next rowid and
`try_into::<u32>()`'s `expect` panics exactly when the rowid exceeds
`u32::MAX = 2^32 - 1`. -/
def write_trie_blob (conn : DbState) (block_hash : BlockHeaderHash) (data : List Nat) :
    Except TrieError (Nat × DbState) :=
  if hashPresent conn.marf_data block_hash then .error .duplicate
  else
    let block_id := maxRowid conn.marf_data + 1
    if 2 ^ 32 ≤ block_id then .error .exhaustionPanic
    else .ok (block_id,
      { conn with marf_data := conn.marf_data ++ [⟨block_id, block_hash, data⟩] })

/-- `write_trie_blob_to_mined`:
`INSERT OR REPLACE INTO mined_blocks (block_hash, data) VALUES (?, ?)`.
SQLite chooses the fresh rowid (largest in use plus one) before the
`UNIQUE(block_hash)` conflict is resolved; `REPLACE` then deletes the
conflicting row and the insert proceeds with the already-chosen rowid, which
is what `Statement::insert` returns. -/
def write_trie_blob_to_mined (conn : DbState) (block_hash : BlockHeaderHash) (data : List Nat) :
    Except TrieError (Nat × DbState) :=
  let block_id := maxRowid conn.mined_blocks + 1
  if 2 ^ 32 ≤ block_id then .error .exhaustionPanic
  else .ok (block_id,
    { conn with mined_blocks :=
        (conn.mined_blocks.filter (fun r => !(r.block_hash == block_hash))) ++
          [⟨block_id, block_hash, data⟩] })

/-- `lock_bhh_for_extension`: inside one transaction, return `false` if the
hash is committed in `marf_data`, else `false` if it is already in
`block_extension_locks`, else insert a lock row and return `true`. -/
def lock_bhh_for_extension (conn : DbState) (bhh : BlockHeaderHash) : Bool × DbState :=
  if hashPresent conn.marf_data bhh then (false, conn)
  else if bhh ∈ conn.block_extension_locks then (false, conn)
  else (true, { conn with block_extension_locks := conn.block_extension_locks ++ [bhh] })

/-- `drop_lock`: `DELETE FROM block_extension_locks WHERE block_hash = ?`. -/
def drop_lock (conn : DbState) (bhh : BlockHeaderHash) : DbState :=
  { conn with block_extension_locks := conn.block_extension_locks.filter (fun x => !(x == bhh)) }

/-- `count_blocks`: `SELECT IFNULL(MAX(block_id), 0) AS count FROM marf_data`. -/
def count_blocks (conn : DbState) : Nat := maxRowid conn.marf_data

/-- The state after a successful `write_trie_blob_to_mined` (the success
branch of that function, named so its behaviour can be stated without
existentials). -/
def minedInsert (conn : DbState) (h : BlockHeaderHash) (b : List Nat) : DbState :=
  { conn with mined_blocks :=
      conn.mined_blocks.filter (fun r => !(r.block_hash == h)) ++
        [⟨maxRowid conn.mined_blocks + 1, h, b⟩] }

/-- Repeated `write_trie_blob` calls.  Each returned pair is the assigned
`block_id` together with the value of `count_blocks` immediately after that
insert; the first failure aborts the sequence. -/
def insertBlobSeq (conn : DbState) :
    List (BlockHeaderHash × List Nat) → Except TrieError (List (Nat × Nat) × DbState)
  | [] => .ok ([], conn)
  | p :: rest =>
    match write_trie_blob conn p.1 p.2 with
    | .error e => .error e
    | .ok (id, conn') =>
      match insertBlobSeq conn' rest with
      | .error e => .error e
      | .ok (pairs, conn'') => .ok ((id, count_blocks conn') :: pairs, conn'')

end TrieSql

namespace Dispatch

abbrev Txid := Nat
abbrev AssetIdentifier := Nat

/-- `(QualifiedContractIdentifier, topic)` key of a smart-contract event. -/
abbrev ContractEventKey := Nat × Nat

inductive STXEventType
  | sTXTransferEvent
  | sTXMintEvent
  | sTXBurnEvent
deriving DecidableEq, Repr

inductive NFTEventType
  | nFTTransferEvent (asset_identifier : AssetIdentifier)
  | nFTMintEvent (asset_identifier : AssetIdentifier)
deriving DecidableEq, Repr

inductive FTEventType
  | fTTransferEvent (asset_identifier : AssetIdentifier)
  | fTMintEvent (asset_identifier : AssetIdentifier)
deriving DecidableEq, Repr

inductive StacksTransactionEvent
  | smartContractEvent (key : ContractEventKey)
  | sTXEvent (ev : STXEventType)
  | nFTEvent (ev : NFTEventType)
  | fTEvent (ev : FTEventType)
deriving DecidableEq, Repr

/-- Clarity `Value`: the dispatcher only distinguishes the `Response` variant
(committed flag plus inner data) from every other variant. -/
inductive Value
  | response (committed : Bool) (data : Nat)
  | nonResponseValue (v : Nat)
deriving DecidableEq, Repr

def Value.isResponse : Value → Bool
  | .response _ _ => true
  | .nonResponseValue _ => false

structure StacksTransaction where
  txid : Txid
  bytes : List Nat
deriving DecidableEq, Repr

structure StacksTransactionReceipt where
  transaction : StacksTransaction
  result : Value
  events : List StacksTransactionEvent
  contract_analysis : Option Nat
deriving DecidableEq, Repr

structure ChainTip where
  block_hash : Nat
  block_height : Nat
  index_block_hash : Nat
  parent_block : Nat
  parent_microblock : Nat
  receipts : List StacksTransactionReceipt
deriving DecidableEq, Repr

structure EventObserver where
  endpoint : Nat
deriving DecidableEq, Repr

inductive EventKeyType
  | smartContractEvent (key : ContractEventKey)
  | sTXEvent
  | assetEvent (key : AssetIdentifier)
  | anyEvent
deriving DecidableEq, Repr

structure EventObserverConfig where
  endpoint : Nat
  events_keys : List EventKeyType
deriving DecidableEq, Repr

/-- Rust `HashSet` insert, on a set represented by the list of its elements. -/
def hsInsert (x : Nat) (s : List Nat) : List Nat := if x ∈ s then s else s ++ [x]

/-- Rust `HashMap::get`, on an association-list representation. -/
def assocGet {α : Type} [BEq α] (m : List (α × List Nat)) (k : α) : Option (List Nat) :=
  (m.find? (fun p => p.1 == k)).map (fun p => p.2)

/-- The `HashMap` entry API used by `register_observer`: insert `idx` into the
set stored at `k`, creating a fresh singleton set when the entry is vacant. -/
def assocInsert {α : Type} [BEq α] (m : List (α × List Nat)) (k : α) (idx : Nat) :
    List (α × List Nat) :=
  match m with
  | [] => [(k, [idx])]
  | p :: rest =>
    if p.1 == k then (p.1, hsInsert idx p.2) :: rest else p :: assocInsert rest k idx

structure EventDispatcher where
  registered_observers : List EventObserver
  contract_events_observers_lookup : List (ContractEventKey × List Nat)
  assets_observers_lookup : List (AssetIdentifier × List Nat)
  stx_observers_lookup : List Nat
  any_event_observers_lookup : List Nat
deriving DecidableEq, Repr

/-- `EventDispatcher::new`. -/
def EventDispatcher.new : EventDispatcher := ⟨[], [], [], [], []⟩

/-- `registered_observers.len() as u16`: the observer index assigned to the
next registration, truncated to 16 bits by the `as` cast. -/
def observerIndexOf (d : EventDispatcher) : Nat :=
  d.registered_observers.length % 2 ^ 16

/-- One arm of the `match event_key_type` loop of `register_observer`. -/
def addObserverKey (observer_index : Nat) (d : EventDispatcher) (k : EventKeyType) :
    EventDispatcher :=
  match k with
  | .smartContractEvent key =>
    { d with contract_events_observers_lookup :=
        assocInsert d.contract_events_observers_lookup key observer_index }
  | .sTXEvent =>
    { d with stx_observers_lookup := hsInsert observer_index d.stx_observers_lookup }
  | .assetEvent key =>
    { d with assets_observers_lookup :=
        assocInsert d.assets_observers_lookup key observer_index }
  | .anyEvent =>
    { d with any_event_observers_lookup := hsInsert observer_index d.any_event_observers_lookup }

/-- `register_observer`: compute the (truncated) observer index, update the
reverse-lookup tables for every configured key, then push the observer. -/
def register_observer (d : EventDispatcher) (conf : EventObserverConfig) : EventDispatcher :=
  let observer_index := observerIndexOf d
  let d' := conf.events_keys.foldl (addObserverKey observer_index) d
  { d' with registered_observers := d'.registered_observers ++ [⟨conf.endpoint⟩] }

/-- Registering a list of observer configurations in order, starting from
`EventDispatcher.new`. -/
def registerAll (cs : List EventObserverConfig) : EventDispatcher :=
  cs.foldl register_observer EventDispatcher.new

/-- The observer index the code assigns to the `n`-th registration (counting
from 0) of the sequence `cs`: `registered_observers.len() as u16` evaluated on
the state after the first `n` registrations. -/
def assignedIndex (cs : List EventObserverConfig) (n : Nat) : Nat :=
  observerIndexOf (registerAll (cs.take n))

/-- `dispatch_matrix[o].insert(i)` (no-op when `o` is out of range, which the
code never reaches: stored indexes are below the observer count). -/
def matrixInsert (m : List (List Nat)) (o : Nat) (i : Nat) : List (List Nat) :=
  m.set o (hsInsert i (m.getD o []))

/-- Insert position `i` into the rows of all observer indexes in `idxs`. -/
def insertAll (idxs : List Nat) (i : Nat) (m : List (List Nat)) : List (List Nat) :=
  idxs.foldl (fun m o => matrixInsert m o i) m

/-- `update_dispatch_matrix_if_observer_subscribed`. -/
def update_dispatch_matrix_if_observer_subscribed (d : EventDispatcher)
    (a : AssetIdentifier) (i : Nat) (m : List (List Nat)) : List (List Nat) :=
  match assocGet d.assets_observers_lookup a with
  | some idxs => insertAll idxs i m
  | none => m

/-- The per-event `match event` of `process_chain_tip`, followed by the
unconditional inserts for the `any_event` observers. -/
def dispatchEvent (d : EventDispatcher) (i : Nat) (m : List (List Nat))
    (e : StacksTransactionEvent) : List (List Nat) :=
  let m1 := match e with
    | .smartContractEvent key =>
      match assocGet d.contract_events_observers_lookup key with
      | some idxs => insertAll idxs i m
      | none => m
    | .sTXEvent _ => insertAll d.stx_observers_lookup i m
    | .nFTEvent (.nFTTransferEvent a) => update_dispatch_matrix_if_observer_subscribed d a i m
    | .nFTEvent (.nFTMintEvent a) => update_dispatch_matrix_if_observer_subscribed d a i m
    | .fTEvent (.fTTransferEvent a) => update_dispatch_matrix_if_observer_subscribed d a i m
    | .fTEvent (.fTMintEvent a) => update_dispatch_matrix_if_observer_subscribed d a i m
  insertAll d.any_event_observers_lookup i m1

/-- The inner `for event in receipt.events` loop; the state carries the
dispatch matrix, the global `events` vector and the position counter `i`. -/
def dispatchEvents (d : EventDispatcher) (txh : Txid)
    (st : List (List Nat) × List (Txid × StacksTransactionEvent) × Nat)
    (evs : List StacksTransactionEvent) :
    List (List Nat) × List (Txid × StacksTransactionEvent) × Nat :=
  evs.foldl (fun st e =>
    (dispatchEvent d st.2.2 st.1 e, st.2.1 ++ [(txh, e)], st.2.2 + 1)) st

/-- The matrix-building phase of `process_chain_tip` (the nested loops over
receipts and their events). -/
def buildDispatch (d : EventDispatcher) (receipts : List StacksTransactionReceipt) :
    List (List Nat) × List (Txid × StacksTransactionEvent) × Nat :=
  receipts.foldl (fun st r => dispatchEvents d r.transaction.txid st r.events)
    (d.registered_observers.map (fun _ => []), [], 0)

/-- The flattened `(txid, event)` stream of a block, in receipt order and
event order within each receipt. -/
def flattenEvents (rs : List StacksTransactionReceipt) :
    List (Txid × StacksTransactionEvent) :=
  rs.flatMap (fun r => r.events.map (fun e => (r.transaction.txid, e)))

/-- One entry of the serialized `transactions` array of the payload. -/
structure TxPayload where
  txid : Txid
  tx_index : Nat
  success : Bool
  raw_result : Nat
  raw_tx : List Nat
  contract_abi : Option Nat
deriving DecidableEq, Repr

/-- The JSON payload assembled by `EventObserver::send`. -/
structure Payload where
  block_hash : Nat
  block_height : Nat
  index_block_hash : Nat
  parent_block : Nat
  parent_microblock : Nat
  events : List (Txid × StacksTransactionEvent)
  transactions : List TxPayload
deriving DecidableEq, Repr

/-- Externally visible actions of the dispatcher: opening a TCP connection to
an observer endpoint, and writing a payload to it. -/
inductive Effect
  | connect (endpoint : Nat)
  | deliver (endpoint : Nat) (payload : Payload)
deriving DecidableEq, Repr

/-- The two panics reachable inside `EventObserver::send`:
the `unreachable` hit on a non-`Response` transaction result, and the
panic raised (after an error log) when writing the buffer fails. -/
inductive PanicReason
  | nonResponseResult
  | sendFailed
deriving DecidableEq, Repr

/-- The serialization of `chain_tip.receipts` inside `send`; `none` models the
`unreachable` panic on the first non-`Response` result. -/
def serializeTxs (tx_index : Nat) : List StacksTransactionReceipt → Option (List TxPayload)
  | [] => some []
  | r :: rest =>
    match r.result with
    | .response committed data =>
      (serializeTxs (tx_index + 1) rest).map (fun l =>
        ⟨r.transaction.txid, tx_index, committed, data, r.transaction.bytes,
          r.contract_analysis⟩ :: l)
    | .nonResponseValue _ => none

def mkPayload (tip : ChainTip) (evs : List (Txid × StacksTransactionEvent))
    (txs : List TxPayload) : Payload :=
  ⟨tip.block_hash, tip.block_height, tip.index_block_hash, tip.parent_block,
    tip.parent_microblock, evs, txs⟩

/-- `EventObserver::send`.  The TCP connect comes first; assembling the
transaction list can hit the non-`Response` `unreachable`; a failed buffer
write is logged and then panics.  `writeFails` models which endpoints' writes
fail.  The returned effects are those performed before any panic. -/
def EventObserver.send (o : EventObserver)
    (filtered_events : List (Txid × StacksTransactionEvent)) (tip : ChainTip)
    (writeFails : Nat → Bool) : List Effect × Option PanicReason :=
  match serializeTxs 0 tip.receipts with
  | none => ([.connect o.endpoint], some .nonResponseResult)
  | some txs =>
    if writeFails o.endpoint then ([.connect o.endpoint], some .sendFailed)
    else ([.connect o.endpoint, .deliver o.endpoint (mkPayload tip filtered_events txs)], none)

/-- Default used for the (never out-of-range) `events[*event_id]` indexing. -/
def defaultEv : Txid × StacksTransactionEvent := (0, .sTXEvent .sTXTransferEvent)

/-- The delivery loop of `process_chain_tip`, over observers paired with their
dispatch-matrix rows.  `iterOrder` models the unspecified iteration order of
the Rust `HashSet` row; a panic in one `send` aborts the whole loop. -/
def sendLoop (events : List (Txid × StacksTransactionEvent)) (tip : ChainTip)
    (iterOrder : List Nat → List Nat) (writeFails : Nat → Bool) :
    List (EventObserver × List Nat) → List Effect × Option PanicReason
  | [] => ([], none)
  | (o, row) :: rest =>
    let filtered := (iterOrder row).map (fun i => events.getD i defaultEv)
    match EventObserver.send o filtered tip writeFails with
    | (effs, some r) => (effs, some r)
    | (effs, none) =>
      let res := sendLoop events tip iterOrder writeFails rest
      (effs ++ res.1, res.2)

/-- `EventDispatcher::process_chain_tip`: build the dispatch matrix, then send
to every registered observer in index order. -/
def process_chain_tip (d : EventDispatcher) (tip : ChainTip)
    (iterOrder : List Nat → List Nat) (writeFails : Nat → Bool) :
    List Effect × Option PanicReason :=
  let st := buildDispatch d tip.receipts
  sendLoop st.2.1 tip iterOrder writeFails (d.registered_observers.zip st.1)

/-- Observer `o` is subscribed to pattern `k`: membership in the dispatcher's
reverse-lookup tables. -/
def subscribed (d : EventDispatcher) (o : Nat) : EventKeyType → Prop
  | .smartContractEvent key => o ∈ (assocGet d.contract_events_observers_lookup key).getD []
  | .sTXEvent => o ∈ d.stx_observers_lookup
  | .assetEvent a => o ∈ (assocGet d.assets_observers_lookup a).getD []
  | .anyEvent => o ∈ d.any_event_observers_lookup

/-- Specification-side matching relation between a subscription pattern and an
event (the spec's pattern table). -/
def eventMatches : EventKeyType → StacksTransactionEvent → Prop
  | .smartContractEvent k, .smartContractEvent k2 => k = k2
  | .sTXEvent, .sTXEvent _ => True
  | .assetEvent a, .nFTEvent (.nFTTransferEvent a2) => a = a2
  | .assetEvent a, .nFTEvent (.nFTMintEvent a2) => a = a2
  | .assetEvent a, .fTEvent (.fTTransferEvent a2) => a = a2
  | .assetEvent a, .fTEvent (.fTMintEvent a2) => a = a2
  | .anyEvent, _ => True
  | _, _ => False

/-- Event `e` matches at least one pattern observer `o` is subscribed to. -/
def obsMatches (d : EventDispatcher) (o : Nat) (e : StacksTransactionEvent) : Prop :=
  ∃ k, subscribed d o k ∧ eventMatches k e

/-- Row `o` of a dispatch matrix. -/
def getRow (m : List (List Nat)) (o : Nat) : List Nat := m.getD o []

/-- One step of the matrix-building loop, phrased on the flattened
`(txid, event)` stream (used to reason about the nested loops uniformly). -/
def dispatchStep (d : EventDispatcher)
    (st : List (List Nat) × List (Txid × StacksTransactionEvent) × Nat)
    (te : Txid × StacksTransactionEvent) :
    List (List Nat) × List (Txid × StacksTransactionEvent) × Nat :=
  (dispatchEvent d st.2.2 st.1 te.2, st.2.1 ++ [te], st.2.2 + 1)

/-- The type-specific observer-index bucket consulted by `dispatchEvent` for
an event (the `any_event` bucket is consulted separately, for every event). -/
def eventBuckets (d : EventDispatcher) : StacksTransactionEvent → List Nat
  | .smartContractEvent key => (assocGet d.contract_events_observers_lookup key).getD []
  | .sTXEvent _ => d.stx_observers_lookup
  | .nFTEvent (.nFTTransferEvent a) => (assocGet d.assets_observers_lookup a).getD []
  | .nFTEvent (.nFTMintEvent a) => (assocGet d.assets_observers_lookup a).getD []
  | .fTEvent (.fTTransferEvent a) => (assocGet d.assets_observers_lookup a).getD []
  | .fTEvent (.fTMintEvent a) => (assocGet d.assets_observers_lookup a).getD []

end Dispatch

namespace TrieSql

theorem maxRowid_nil : maxRowid [] = 0 := rfl

theorem maxRowid_cons (r : Row) (t : List Row) :
    maxRowid (r :: t) = max r.block_id (maxRowid t) := rfl

theorem maxRowid_append (t : List Row) (r : Row) :
    maxRowid (t ++ [r]) = max (maxRowid t) r.block_id := by
  induction t with
  | nil => simp [maxRowid_nil, maxRowid_cons]
  | cons a t ih =>
    simp only [List.cons_append, maxRowid_cons, ih]
    omega

theorem maxRowid_filter_le (p : Row → Bool) (t : List Row) :
    maxRowid (t.filter p) ≤ maxRowid t := by
  induction t with
  | nil => simp [maxRowid_nil]
  | cons a t ih =>
    by_cases hp : p a <;> simp [List.filter_cons, hp, maxRowid_cons] <;> omega

theorem hashPresent_append (t : List Row) (r : Row) (h : BlockHeaderHash) :
    hashPresent (t ++ [r]) h = (hashPresent t h || (r.block_hash == h)) := by
  simp [hashPresent]

theorem write_trie_blob_eq (conn : DbState) (h : BlockHeaderHash) (d : List Nat)
    (hfresh : hashPresent conn.marf_data h = false)
    (hb : maxRowid conn.marf_data + 1 < 2 ^ 32) :
    write_trie_blob conn h d =
      .ok (maxRowid conn.marf_data + 1,
        { conn with marf_data :=
            conn.marf_data ++ [⟨maxRowid conn.marf_data + 1, h, d⟩] }) := by
  simp only [write_trie_blob]
  rw [if_neg (by simp [hfresh]), if_neg (by omega)]

theorem write_trie_blob_exhaust (conn : DbState) (h : BlockHeaderHash) (d : List Nat)
    (hfresh : hashPresent conn.marf_data h = false)
    (hb : 2 ^ 32 ≤ maxRowid conn.marf_data + 1) :
    write_trie_blob conn h d = .error .exhaustionPanic := by
  simp only [write_trie_blob]
  rw [if_neg (by simp [hfresh]), if_pos hb]

/-- Claim C5 (amended): `write_trie_blob` never checks against 2^31 - 1.
With a fresh `block_hash`, it panics with the exhaustion message exactly when
the assigned rowid does not fit in `u32` (exceeds 2^32 - 1); below that bound
it succeeds and returns the new row's rowid as the `block_id`. -/
theorem c5_insert_exhaustion (conn : DbState) (h : BlockHeaderHash) (d : List Nat)
    (hfresh : hashPresent conn.marf_data h = false) :
    (2 ^ 32 ≤ maxRowid conn.marf_data + 1 →
      write_trie_blob conn h d = .error .exhaustionPanic) ∧
    (maxRowid conn.marf_data + 1 < 2 ^ 32 →
      write_trie_blob conn h d =
        .ok (maxRowid conn.marf_data + 1,
          { conn with marf_data :=
              conn.marf_data ++ [⟨maxRowid conn.marf_data + 1, h, d⟩] })) :=
  ⟨fun hb => write_trie_blob_exhaust conn h d hfresh hb,
   fun hb => write_trie_blob_eq conn h d hfresh hb⟩

/-- Claim C5 counterexample: with the largest assigned `block_id` equal to
2^31 - 1, the next insert does not fail with an exhaustion error as the claim
requires: it succeeds and returns block_id 2^31, which exceeds 2^31 - 1. -/
theorem c5_counterexample :
    write_trie_blob ⟨[⟨2 ^ 31 - 1, 0, []⟩], [], []⟩ 1 [] =
      .ok (2 ^ 31, ⟨[⟨2 ^ 31 - 1, 0, []⟩, ⟨2 ^ 31, 1, []⟩], [], []⟩) ∧
    2 ^ 31 - 1 < (2 ^ 31 : Nat) := by
  constructor
  · decide
  · decide

theorem c5_witness :
    write_trie_blob ⟨[⟨2 ^ 32 - 1, 0, []⟩], [], []⟩ 1 [] = .error .exhaustionPanic ∧
    write_trie_blob emptyDb 0 [] = .ok (1, ⟨[⟨1, 0, []⟩], [], []⟩) :=
  ⟨(c5_insert_exhaustion ⟨[⟨2 ^ 32 - 1, 0, []⟩], [], []⟩ 1 [] (by decide)).1 (by decide),
   (c5_insert_exhaustion emptyDb 0 [] (by decide)).2 (by decide)⟩

theorem write_mined_eq (conn : DbState) (h : BlockHeaderHash) (b : List Nat)
    (hb : maxRowid conn.mined_blocks + 1 < 2 ^ 32) :
    write_trie_blob_to_mined conn h b =
      .ok (maxRowid conn.mined_blocks + 1, minedInsert conn h b) := by
  simp only [write_trie_blob_to_mined]
  rw [if_neg (by omega)]
  rfl

theorem minedInsert_maxRowid (conn : DbState) (h : BlockHeaderHash) (b : List Nat) :
    maxRowid (minedInsert conn h b).mined_blocks = maxRowid conn.mined_blocks + 1 := by
  have hle := maxRowid_filter_le (fun r => !(r.block_hash == h)) conn.mined_blocks
  simp [minedInsert, maxRowid_append]
  omega

theorem getBlobByHash_minedInsert (conn : DbState) (h : BlockHeaderHash) (b : List Nat) :
    getBlobByHash (minedInsert conn h b).mined_blocks h = some b := by
  have hnone : (conn.mined_blocks.filter (fun r => !(r.block_hash == h))).find?
      (fun r => r.block_hash == h) = none := by
    rw [List.find?_eq_none]
    intro x hx
    have hpx := (List.mem_filter.mp hx).2
    simp at hpx
    simp [hpx]
  simp [getBlobByHash, minedInsert, List.find?_append, hnone]

/-- Claim C6 (amended): two successive `write_trie_blob_to_mined` calls on
the same hash do NOT return the same `block_id`.  SQLite chooses the new
rowid before the REPLACE deletes the old row, so the second call returns the
successor of the first id.  Last-writer-wins on the data and non-interference
with the committed namespace do hold. -/
theorem c6_mined_replace (conn : DbState) (h : BlockHeaderHash) (b1 b2 : List Nat)
    (hbound : maxRowid conn.mined_blocks + 2 < 2 ^ 32) :
    write_trie_blob_to_mined conn h b1 =
      .ok (maxRowid conn.mined_blocks + 1, minedInsert conn h b1) ∧
    write_trie_blob_to_mined (minedInsert conn h b1) h b2 =
      .ok (maxRowid conn.mined_blocks + 2,
        minedInsert (minedInsert conn h b1) h b2) ∧
    maxRowid conn.mined_blocks + 1 < maxRowid conn.mined_blocks + 2 ∧
    getBlobByHash (minedInsert (minedInsert conn h b1) h b2).mined_blocks h = some b2 ∧
    (minedInsert (minedInsert conn h b1) h b2).marf_data = conn.marf_data ∧
    (minedInsert (minedInsert conn h b1) h b2).block_extension_locks =
      conn.block_extension_locks := by
  have h1 : maxRowid conn.mined_blocks + 1 < 2 ^ 32 := by omega
  refine ⟨write_mined_eq conn h b1 h1, ?_, by omega,
    getBlobByHash_minedInsert _ h b2, rfl, rfl⟩
  rw [write_mined_eq (minedInsert conn h b1) h b2 (by rw [minedInsert_maxRowid]; omega),
    minedInsert_maxRowid]

/-- Claim C6 counterexample: on an initially empty mined namespace, the first
call returns block_id 1 and the second call for the same hash returns
block_id 2, refuting "two successive calls return the same block_id". -/
theorem c6_counterexample :
    write_trie_blob_to_mined emptyDb 0 [1] = .ok (1, ⟨[], [⟨1, 0, [1]⟩], []⟩) ∧
    write_trie_blob_to_mined ⟨[], [⟨1, 0, [1]⟩], []⟩ 0 [2] =
      .ok (2, ⟨[], [⟨2, 0, [2]⟩], []⟩) ∧
    (1 : Nat) ≠ 2 := by
  refine ⟨by decide, by decide, by decide⟩

theorem c6_witness :
    write_trie_blob_to_mined emptyDb 0 [1] = .ok (1, minedInsert emptyDb 0 [1]) ∧
    write_trie_blob_to_mined (minedInsert emptyDb 0 [1]) 0 [2] =
      .ok (2, minedInsert (minedInsert emptyDb 0 [1]) 0 [2]) ∧
    (1 : Nat) < 2 ∧
    getBlobByHash (minedInsert (minedInsert emptyDb 0 [1]) 0 [2]).mined_blocks 0 =
      some [2] ∧
    (minedInsert (minedInsert emptyDb 0 [1]) 0 [2]).marf_data = emptyDb.marf_data ∧
    (minedInsert (minedInsert emptyDb 0 [1]) 0 [2]).block_extension_locks =
      emptyDb.block_extension_locks :=
  c6_mined_replace emptyDb 0 [1] [2] (by decide)

/-- Claim C7: `lock_bhh_for_extension` returns `false` on a committed hash,
`false` on an already-locked hash, and otherwise inserts a lock row and
returns `true`; hence a second `try_lock` after a successful one returns
`false`, and `try_lock; drop_lock; try_lock` on an uncommitted hash ends with
`true`. -/
theorem c7_lock_semantics (conn : DbState) (h : BlockHeaderHash) :
    (hashPresent conn.marf_data h = true →
      lock_bhh_for_extension conn h = (false, conn)) ∧
    (hashPresent conn.marf_data h = false → h ∈ conn.block_extension_locks →
      lock_bhh_for_extension conn h = (false, conn)) ∧
    (hashPresent conn.marf_data h = false → h ∉ conn.block_extension_locks →
      lock_bhh_for_extension conn h =
        (true, { conn with block_extension_locks :=
                   conn.block_extension_locks ++ [h] })) ∧
    ((lock_bhh_for_extension conn h).1 = true →
      (lock_bhh_for_extension (lock_bhh_for_extension conn h).2 h).1 = false) ∧
    (hashPresent conn.marf_data h = false →
      (lock_bhh_for_extension (drop_lock (lock_bhh_for_extension conn h).2 h) h).1 =
        true) := by
  refine ⟨?_, ?_, ?_, ?_, ?_⟩
  · intro hc
    simp [lock_bhh_for_extension, hc]
  · intro hc hl
    simp [lock_bhh_for_extension, hc, hl]
  · intro hc hl
    simp [lock_bhh_for_extension, hc, hl]
  · intro ht
    by_cases hc : hashPresent conn.marf_data h
    · simp [lock_bhh_for_extension, hc] at ht
    · by_cases hl : h ∈ conn.block_extension_locks
      · simp [lock_bhh_for_extension, hc, hl] at ht
      · simp [lock_bhh_for_extension, hc, hl]
  · intro hc
    by_cases hl : h ∈ conn.block_extension_locks
    · simp [lock_bhh_for_extension, drop_lock, hc, hl, List.mem_filter]
    · simp [lock_bhh_for_extension, drop_lock, hc, hl, List.mem_filter]

theorem c7_witness :
    lock_bhh_for_extension ⟨[⟨1, 5, []⟩], [], []⟩ 5 = (false, ⟨[⟨1, 5, []⟩], [], []⟩) ∧
    lock_bhh_for_extension ⟨[], [], [7]⟩ 7 = (false, ⟨[], [], [7]⟩) ∧
    lock_bhh_for_extension ⟨[], [], []⟩ 7 = (true, ⟨[], [], [7]⟩) ∧
    (lock_bhh_for_extension (lock_bhh_for_extension ⟨[], [], []⟩ 7).2 7).1 = false ∧
    (lock_bhh_for_extension (drop_lock (lock_bhh_for_extension ⟨[], [], []⟩ 7).2 7) 7).1 =
      true :=
  ⟨(c7_lock_semantics ⟨[⟨1, 5, []⟩], [], []⟩ 5).1 (by decide),
   (c7_lock_semantics ⟨[], [], [7]⟩ 7).2.1 (by decide) (by decide),
   (c7_lock_semantics ⟨[], [], []⟩ 7).2.2.1 (by decide) (by decide),
   (c7_lock_semantics ⟨[], [], []⟩ 7).2.2.2.1 (by decide),
   (c7_lock_semantics ⟨[], [], []⟩ 7).2.2.2.2 (by decide)⟩

theorem insertBlobSeq_spec (ps : List (BlockHeaderHash × List Nat)) :
    ∀ conn : DbState, (ps.map Prod.fst).Nodup →
      (∀ p ∈ ps, hashPresent conn.marf_data p.1 = false) →
      maxRowid conn.marf_data + ps.length < 2 ^ 32 →
      ∃ conn',
        insertBlobSeq conn ps =
          .ok ((List.range' (maxRowid conn.marf_data + 1) ps.length).map
                 (fun i => (i, i)), conn') ∧
        maxRowid conn'.marf_data = maxRowid conn.marf_data + ps.length ∧
        (∀ h, hashPresent conn'.marf_data h =
          (hashPresent conn.marf_data h ||
            (ps.map Prod.fst).any (fun x => x == h))) := by
  induction ps with
  | nil =>
    intro conn _ _ _
    exact ⟨conn, by simp [insertBlobSeq], by simp, by simp⟩
  | cons p ps ih =>
    intro conn hnodup hfresh hbound
    have hfresh0 : hashPresent conn.marf_data p.1 = false := hfresh p (by simp)
    have hlt : maxRowid conn.marf_data + 1 < 2 ^ 32 := by
      simp only [List.length_cons] at hbound; omega
    have hw := write_trie_blob_eq conn p.1 p.2 hfresh0 hlt
    set conn1 : DbState :=
      { conn with marf_data :=
          conn.marf_data ++ [⟨maxRowid conn.marf_data + 1, p.1, p.2⟩] } with hconn1
    have hmax1 : maxRowid conn1.marf_data = maxRowid conn.marf_data + 1 := by
      simp [hconn1, maxRowid_append]
    have hpres1 : ∀ h, hashPresent conn1.marf_data h =
        (hashPresent conn.marf_data h || (p.1 == h)) := by
      intro h
      simp [hconn1, hashPresent_append]
    rw [List.map_cons] at hnodup
    have hnd := List.nodup_cons.mp hnodup
    have hfresh1 : ∀ q ∈ ps, hashPresent conn1.marf_data q.1 = false := by
      intro q hq
      rw [hpres1]
      have hq1 : hashPresent conn.marf_data q.1 = false := hfresh q (by simp [hq])
      have hne : p.1 ≠ q.1 := by
        intro he
        exact hnd.1 (he ▸ List.mem_map_of_mem Prod.fst hq)
      simp [hq1, hne]
    have hbound1 : maxRowid conn1.marf_data + ps.length < 2 ^ 32 := by
      rw [hmax1]
      simp only [List.length_cons] at hbound
      omega
    obtain ⟨conn', heq, hmax', hpres'⟩ := ih conn1 hnd.2 hfresh1 hbound1
    refine ⟨conn', ?_, ?_, ?_⟩
    · simp only [insertBlobSeq, hw, heq, List.length_cons, List.range'_succ, List.map_cons]
      simp [count_blocks, hmax1]
    · rw [hmax', hmax1]
      simp only [List.length_cons]
      omega
    · intro h
      rw [hpres', hpres1]
      simp [Bool.or_assoc]

/-- Claim C8: starting from an empty store, a sequence of inserts with
pairwise-distinct hashes succeeds with strictly increasing block_ids 1..n,
`count_blocks` right after each insert equals the id just returned, and
`count_blocks` of the empty store is 0 (and of the final store, the maximum
assigned id n). -/
theorem c8_insert_monotonic (ps : List (BlockHeaderHash × List Nat))
    (hnodup : (ps.map Prod.fst).Nodup) (hlen : ps.length < 2 ^ 32) :
    count_blocks emptyDb = 0 ∧
    Except.map (fun r => r.1) (insertBlobSeq emptyDb ps) =
      .ok ((List.range' 1 ps.length).map (fun i => (i, i))) ∧
    Except.map (fun r => count_blocks r.2) (insertBlobSeq emptyDb ps) =
      .ok ps.length ∧
    List.Pairwise (fun a b => a < b)
      (((List.range' 1 ps.length).map (fun i => (i, i))).map Prod.fst) ∧
    (∀ pr ∈ (List.range' 1 ps.length).map (fun i => (i, i)), pr.2 = pr.1) := by
  obtain ⟨conn', heq, hmax, _⟩ :=
    insertBlobSeq_spec ps emptyDb hnodup (by intro p _; rfl)
      (by simpa [emptyDb, maxRowid_nil] using hlen)
  refine ⟨rfl, ?_, ?_, ?_, ?_⟩
  · rw [heq]
    rfl
  · rw [heq]
    simp only [Except.map]
    rw [show count_blocks conn' = ps.length by simp [count_blocks, hmax, emptyDb, maxRowid_nil]]
  · rw [List.map_map]
    have hid : (Prod.fst ∘ fun i : Nat => (i, i)) = id := rfl
    rw [hid, List.map_id]
    exact List.pairwise_lt_range' ..
  · intro pr hpr
    obtain ⟨i, _, rfl⟩ := List.mem_map.mp hpr
    rfl

theorem c8_witness :
    Except.map (fun r => r.1) (insertBlobSeq emptyDb [(0, []), (1, [])]) =
      .ok [(1, 1), (2, 2)] ∧
    Except.map (fun r => count_blocks r.2) (insertBlobSeq emptyDb [(0, []), (1, [])]) =
      .ok 2 :=
  ⟨(c8_insert_monotonic [(0, []), (1, [])] (by decide) (by decide)).2.1,
   (c8_insert_monotonic [(0, []), (1, [])] (by decide) (by decide)).2.2.1⟩

/-- Claim C10: `lock_bhh_for_extension` consults only the committed
`marf_data` table: a hash present only in `mined_blocks`, absent from
`marf_data` and the lock set, is locked successfully. -/
theorem c10_lock_ignores_mined (conn : DbState) (h : BlockHeaderHash)
    (_hmined : hashPresent conn.mined_blocks h = true)
    (hmarf : hashPresent conn.marf_data h = false)
    (hlock : h ∉ conn.block_extension_locks) :
    lock_bhh_for_extension conn h =
      (true, { conn with block_extension_locks :=
                 conn.block_extension_locks ++ [h] }) := by
  simp [lock_bhh_for_extension, hmarf, hlock]

theorem c10_witness :
    lock_bhh_for_extension ⟨[], [⟨1, 5, [9]⟩], []⟩ 5 =
      (true, ⟨[], [⟨1, 5, [9]⟩], [5]⟩) :=
  c10_lock_ignores_mined ⟨[], [⟨1, 5, [9]⟩], []⟩ 5 (by decide) (by decide) (by decide)

end TrieSql

namespace Dispatch

theorem mem_hsInsert (j i : Nat) (s : List Nat) :
    j ∈ hsInsert i s ↔ j ∈ s ∨ j = i := by
  by_cases h : i ∈ s
  · simp only [hsInsert, if_pos h]
    constructor
    · exact Or.inl
    · rintro (hj | rfl)
      · exact hj
      · exact h
  · simp [hsInsert, if_neg h]

theorem nodup_hsInsert (i : Nat) (s : List Nat) (h : s.Nodup) :
    (hsInsert i s).Nodup := by
  by_cases hi : i ∈ s
  · simpa [hsInsert, hi] using h
  · rw [hsInsert, if_neg hi]
    simp [List.nodup_append, h, hi]

theorem length_matrixInsert (m : List (List Nat)) (o i : Nat) :
    (matrixInsert m o i).length = m.length := by
  simp [matrixInsert]

theorem getRow_matrixInsert (m : List (List Nat)) (o' o i : Nat) :
    getRow (matrixInsert m o' i) o =
      if o' = o ∧ o < m.length then hsInsert i (getRow m o) else getRow m o := by
  unfold getRow matrixInsert
  rcases Nat.lt_or_ge o m.length with ho | ho
  · rw [List.getD_eq_getElem?_getD, List.getElem?_set, List.getD_eq_getElem?_getD]
    by_cases he : o' = o
    · subst he
      simp [ho, List.getD_eq_getElem?_getD]
    · simp [he, ho]
  · have h1 : m.getD o [] = [] := by
      rw [List.getD_eq_getElem?_getD, List.getElem?_eq_none (by omega)]
      rfl
    have h2 : (m.set o' (hsInsert i (m.getD o' []))).getD o [] = [] := by
      rw [List.getD_eq_getElem?_getD, List.getElem?_eq_none (by simpa using ho)]
      rfl
    rw [h1, h2, if_neg (by omega)]

theorem length_insertAll (idxs : List Nat) (i : Nat) (m : List (List Nat)) :
    (insertAll idxs i m).length = m.length := by
  induction idxs generalizing m with
  | nil => rfl
  | cons a rest ih =>
    simp only [insertAll, List.foldl_cons] at ih ⊢
    rw [ih, length_matrixInsert]

theorem mem_getRow_insertAll (idxs : List Nat) (i : Nat) (m : List (List Nat)) (o j : Nat) :
    j ∈ getRow (insertAll idxs i m) o ↔
      j ∈ getRow m o ∨ (j = i ∧ o ∈ idxs ∧ o < m.length) := by
  induction idxs generalizing m with
  | nil => simp [insertAll]
  | cons a rest ih =>
    simp only [insertAll, List.foldl_cons] at ih ⊢
    rw [ih, length_matrixInsert, getRow_matrixInsert]
    simp only [List.mem_cons]
    by_cases he : a = o ∧ o < m.length
    · rw [if_pos he, mem_hsInsert]
      constructor
      · rintro ((hj | rfl) | ⟨rfl, hmem, hlt⟩)
        · exact Or.inl hj
        · exact Or.inr ⟨rfl, Or.inl he.1.symm, he.2⟩
        · exact Or.inr ⟨rfl, Or.inr hmem, hlt⟩
      · rintro (hj | ⟨rfl, (heq | hmem), hlt⟩)
        · exact Or.inl (Or.inl hj)
        · exact Or.inl (Or.inr rfl)
        · exact Or.inr ⟨rfl, hmem, hlt⟩
    · rw [if_neg he]
      constructor
      · rintro (hj | ⟨rfl, hmem, hlt⟩)
        · exact Or.inl hj
        · exact Or.inr ⟨rfl, Or.inr hmem, hlt⟩
      · rintro (hj | ⟨rfl, (heq | hmem), hlt⟩)
        · exact Or.inl hj
        · exact absurd ⟨heq.symm, hlt⟩ he
        · exact Or.inr ⟨rfl, hmem, hlt⟩

theorem nodup_getRow_insertAll (idxs : List Nat) (i : Nat) (m : List (List Nat))
    (h : ∀ o, (getRow m o).Nodup) : ∀ o, (getRow (insertAll idxs i m) o).Nodup := by
  induction idxs generalizing m with
  | nil => exact h
  | cons a rest ih =>
    simp only [insertAll, List.foldl_cons] at ih ⊢
    refine ih _ ?_
    intro o
    rw [getRow_matrixInsert]
    by_cases he : a = o ∧ o < m.length
    · rw [if_pos he]
      exact nodup_hsInsert _ _ (h o)
    · rw [if_neg he]
      exact h o

theorem dispatchEvent_eq_insertAll (d : EventDispatcher) (i : Nat) (m : List (List Nat))
    (e : StacksTransactionEvent) :
    dispatchEvent d i m e =
      insertAll d.any_event_observers_lookup i (insertAll (eventBuckets d e) i m) := by
  cases e with
  | smartContractEvent key =>
    cases hg : assocGet d.contract_events_observers_lookup key <;>
      simp [dispatchEvent, eventBuckets, hg, insertAll]
  | sTXEvent ev => rfl
  | nFTEvent ev =>
    cases ev with
    | nFTTransferEvent a =>
      cases hg : assocGet d.assets_observers_lookup a <;>
        simp [dispatchEvent, update_dispatch_matrix_if_observer_subscribed,
          eventBuckets, hg, insertAll]
    | nFTMintEvent a =>
      cases hg : assocGet d.assets_observers_lookup a <;>
        simp [dispatchEvent, update_dispatch_matrix_if_observer_subscribed,
          eventBuckets, hg, insertAll]
  | fTEvent ev =>
    cases ev with
    | fTTransferEvent a =>
      cases hg : assocGet d.assets_observers_lookup a <;>
        simp [dispatchEvent, update_dispatch_matrix_if_observer_subscribed,
          eventBuckets, hg, insertAll]
    | fTMintEvent a =>
      cases hg : assocGet d.assets_observers_lookup a <;>
        simp [dispatchEvent, update_dispatch_matrix_if_observer_subscribed,
          eventBuckets, hg, insertAll]

theorem obsMatches_iff (d : EventDispatcher) (o : Nat) (e : StacksTransactionEvent) :
    obsMatches d o e ↔ o ∈ eventBuckets d e ∨ o ∈ d.any_event_observers_lookup := by
  cases e with
  | smartContractEvent key =>
    constructor
    · rintro ⟨k, hs, hm⟩
      cases k with
      | smartContractEvent k2 =>
        cases hm
        exact Or.inl hs
      | sTXEvent => exact hm.elim
      | assetEvent a => exact hm.elim
      | anyEvent => exact Or.inr hs
    · rintro (hb | ha)
      · exact ⟨.smartContractEvent key, hb, rfl⟩
      · exact ⟨.anyEvent, ha, trivial⟩
  | sTXEvent ev =>
    constructor
    · rintro ⟨k, hs, hm⟩
      cases k with
      | smartContractEvent k2 => exact hm.elim
      | sTXEvent => exact Or.inl hs
      | assetEvent a => exact hm.elim
      | anyEvent => exact Or.inr hs
    · rintro (hb | ha)
      · exact ⟨.sTXEvent, hb, trivial⟩
      · exact ⟨.anyEvent, ha, trivial⟩
  | nFTEvent ev =>
    cases ev with
    | nFTTransferEvent a =>
      constructor
      · rintro ⟨k, hs, hm⟩
        cases k with
        | smartContractEvent k2 => exact hm.elim
        | sTXEvent => exact hm.elim
        | assetEvent a2 =>
          cases hm
          exact Or.inl hs
        | anyEvent => exact Or.inr hs
      · rintro (hb | ha)
        · exact ⟨.assetEvent a, hb, rfl⟩
        · exact ⟨.anyEvent, ha, trivial⟩
    | nFTMintEvent a =>
      constructor
      · rintro ⟨k, hs, hm⟩
        cases k with
        | smartContractEvent k2 => exact hm.elim
        | sTXEvent => exact hm.elim
        | assetEvent a2 =>
          cases hm
          exact Or.inl hs
        | anyEvent => exact Or.inr hs
      · rintro (hb | ha)
        · exact ⟨.assetEvent a, hb, rfl⟩
        · exact ⟨.anyEvent, ha, trivial⟩
  | fTEvent ev =>
    cases ev with
    | fTTransferEvent a =>
      constructor
      · rintro ⟨k, hs, hm⟩
        cases k with
        | smartContractEvent k2 => exact hm.elim
        | sTXEvent => exact hm.elim
        | assetEvent a2 =>
          cases hm
          exact Or.inl hs
        | anyEvent => exact Or.inr hs
      · rintro (hb | ha)
        · exact ⟨.assetEvent a, hb, rfl⟩
        · exact ⟨.anyEvent, ha, trivial⟩
    | fTMintEvent a =>
      constructor
      · rintro ⟨k, hs, hm⟩
        cases k with
        | smartContractEvent k2 => exact hm.elim
        | sTXEvent => exact hm.elim
        | assetEvent a2 =>
          cases hm
          exact Or.inl hs
        | anyEvent => exact Or.inr hs
      · rintro (hb | ha)
        · exact ⟨.assetEvent a, hb, rfl⟩
        · exact ⟨.anyEvent, ha, trivial⟩

theorem length_dispatchEvent (d : EventDispatcher) (i : Nat) (m : List (List Nat))
    (e : StacksTransactionEvent) : (dispatchEvent d i m e).length = m.length := by
  rw [dispatchEvent_eq_insertAll, length_insertAll, length_insertAll]

theorem mem_getRow_dispatchEvent (d : EventDispatcher) (i : Nat) (m : List (List Nat))
    (e : StacksTransactionEvent) (o j : Nat) :
    j ∈ getRow (dispatchEvent d i m e) o ↔
      j ∈ getRow m o ∨ (j = i ∧ o < m.length ∧ obsMatches d o e) := by
  rw [dispatchEvent_eq_insertAll, mem_getRow_insertAll, mem_getRow_insertAll,
    length_insertAll, obsMatches_iff]
  constructor
  · rintro ((hj | ⟨rfl, hb, hlt⟩) | ⟨rfl, ha, hlt⟩)
    · exact Or.inl hj
    · exact Or.inr ⟨rfl, hlt, Or.inl hb⟩
    · exact Or.inr ⟨rfl, hlt, Or.inr ha⟩
  · rintro (hj | ⟨rfl, hlt, (hb | ha)⟩)
    · exact Or.inl (Or.inl hj)
    · exact Or.inl (Or.inr ⟨rfl, hb, hlt⟩)
    · exact Or.inr ⟨rfl, ha, hlt⟩

theorem nodup_getRow_dispatchEvent (d : EventDispatcher) (i : Nat) (m : List (List Nat))
    (e : StacksTransactionEvent) (h : ∀ o, (getRow m o).Nodup) :
    ∀ o, (getRow (dispatchEvent d i m e) o).Nodup := by
  rw [dispatchEvent_eq_insertAll]
  exact nodup_getRow_insertAll _ _ _ (nodup_getRow_insertAll _ _ _ h)

end Dispatch

namespace Dispatch

theorem flattenEvents_cons (r : StacksTransactionReceipt) (rs : List StacksTransactionReceipt) :
    flattenEvents (r :: rs) =
      r.events.map (fun e => (r.transaction.txid, e)) ++ flattenEvents rs := by
  simp [flattenEvents]

theorem dispatchEvents_eq (d : EventDispatcher) (txh : Txid)
    (evs : List StacksTransactionEvent) :
    ∀ st, dispatchEvents d txh st evs =
      (evs.map (fun e => (txh, e))).foldl (dispatchStep d) st := by
  induction evs with
  | nil => intro st; rfl
  | cons e evs ih =>
    intro st
    have h0 : dispatchEvents d txh st (e :: evs) =
        dispatchEvents d txh (dispatchStep d st (txh, e)) evs := rfl
    rw [h0, ih, List.map_cons, List.foldl_cons]

theorem buildDispatch_eq (d : EventDispatcher) (rs : List StacksTransactionReceipt) :
    buildDispatch d rs =
      (flattenEvents rs).foldl (dispatchStep d)
        (d.registered_observers.map (fun _ => []), [], 0) := by
  suffices h : ∀ st, rs.foldl (fun st r => dispatchEvents d r.transaction.txid st r.events) st =
      (flattenEvents rs).foldl (dispatchStep d) st from h _
  induction rs with
  | nil => intro st; rfl
  | cons r rs ih =>
    intro st
    rw [List.foldl_cons, flattenEvents_cons, List.foldl_append, dispatchEvents_eq, ih]

theorem pairsFold_acc (d : EventDispatcher) (l : List (Txid × StacksTransactionEvent)) :
    ∀ st, (l.foldl (dispatchStep d) st).2.1 = st.2.1 ++ l := by
  induction l with
  | nil => intro st; simp
  | cons te l ih =>
    intro st
    rw [List.foldl_cons, ih]
    simp [dispatchStep]

theorem pairsFold_count (d : EventDispatcher) (l : List (Txid × StacksTransactionEvent)) :
    ∀ st, (l.foldl (dispatchStep d) st).2.2 = st.2.2 + l.length := by
  induction l with
  | nil => intro st; simp
  | cons te l ih =>
    intro st
    rw [List.foldl_cons, ih]
    simp [dispatchStep]
    omega

theorem pairsFold_length (d : EventDispatcher) (l : List (Txid × StacksTransactionEvent)) :
    ∀ st, (l.foldl (dispatchStep d) st).1.length = st.1.length := by
  induction l with
  | nil => intro st; rfl
  | cons te l ih =>
    intro st
    rw [List.foldl_cons, ih]
    simp [dispatchStep, length_dispatchEvent]

theorem pairsFold_mem (d : EventDispatcher) (l : List (Txid × StacksTransactionEvent)) :
    ∀ st o j, j ∈ getRow (l.foldl (dispatchStep d) st).1 o ↔
      (j ∈ getRow st.1 o ∨ (o < st.1.length ∧
        ∃ p, p < l.length ∧ j = st.2.2 + p ∧ obsMatches d o (l.getD p defaultEv).2)) := by
  induction l with
  | nil => intro st o j; simp
  | cons te l ih =>
    intro st o j
    rw [List.foldl_cons, ih]
    simp only [dispatchStep]
    rw [mem_getRow_dispatchEvent, length_dispatchEvent]
    constructor
    · rintro ((hj | ⟨rfl, hlt, hm⟩) | ⟨hlt, p, hp, rfl, hm⟩)
      · exact Or.inl hj
      · exact Or.inr ⟨hlt, 0, Nat.succ_pos _, (Nat.add_zero _).symm, by simpa using hm⟩
      · exact Or.inr ⟨hlt, p + 1, by simpa using hp, by omega, by simpa using hm⟩
    · rintro (hj | ⟨hlt, p, hp, rfl, hm⟩)
      · exact Or.inl (Or.inl hj)
      · cases p with
        | zero => exact Or.inl (Or.inr ⟨by omega, hlt, by simpa using hm⟩)
        | succ p => exact Or.inr ⟨hlt, p, by simpa using hp, by omega, by simpa using hm⟩

theorem pairsFold_nodup (d : EventDispatcher) (l : List (Txid × StacksTransactionEvent)) :
    ∀ st, (∀ o, (getRow st.1 o).Nodup) →
      ∀ o, (getRow (l.foldl (dispatchStep d) st).1 o).Nodup := by
  induction l with
  | nil => intro st h; exact h
  | cons te l ih =>
    intro st h
    rw [List.foldl_cons]
    exact ih _ (nodup_getRow_dispatchEvent d st.2.2 st.1 te.2 h)

theorem getRow_init (obs : List EventObserver) (o : Nat) :
    getRow (obs.map (fun _ => ([] : List Nat))) o = [] := by
  unfold getRow
  rcases Nat.lt_or_ge o obs.length with ho | ho
  · rw [List.getD_eq_getElem _ _ (by simpa using ho)]
    simp
  · rw [List.getD_eq_getElem?_getD, List.getElem?_eq_none (by simpa using ho)]
    rfl

theorem buildDispatch_events (d : EventDispatcher) (rs : List StacksTransactionReceipt) :
    (buildDispatch d rs).2.1 = flattenEvents rs := by
  rw [buildDispatch_eq, pairsFold_acc]
  rfl

theorem buildDispatch_len (d : EventDispatcher) (rs : List StacksTransactionReceipt) :
    (buildDispatch d rs).1.length = d.registered_observers.length := by
  rw [buildDispatch_eq, pairsFold_length]
  simp

theorem buildDispatch_mem (d : EventDispatcher) (rs : List StacksTransactionReceipt)
    (o j : Nat) :
    j ∈ getRow (buildDispatch d rs).1 o ↔
      (o < d.registered_observers.length ∧ j < (flattenEvents rs).length ∧
        obsMatches d o ((flattenEvents rs).getD j defaultEv).2) := by
  rw [buildDispatch_eq, pairsFold_mem]
  constructor
  · rintro (h | ⟨hlt, p, hp, rfl, hm⟩)
    · rw [getRow_init] at h
      exact absurd h (List.not_mem_nil _)
    · exact ⟨by simpa using hlt, by simpa using hp, by simpa using hm⟩
  · rintro ⟨ho, hj, hm⟩
    exact Or.inr ⟨by simpa using ho, j, hj, by simp, hm⟩

theorem buildDispatch_nodup (d : EventDispatcher) (rs : List StacksTransactionReceipt)
    (o : Nat) : (getRow (buildDispatch d rs).1 o).Nodup := by
  rw [buildDispatch_eq]
  exact pairsFold_nodup d _ _ (fun o => by rw [getRow_init]; exact List.nodup_nil) o

theorem serializeTxs_none (rs : List StacksTransactionReceipt)
    (hbad : ∃ r ∈ rs, r.result.isResponse = false) :
    ∀ k, serializeTxs k rs = none := by
  induction rs with
  | nil => simp at hbad
  | cons r rs ih =>
    intro k
    obtain ⟨r', hr', hbad'⟩ := hbad
    rcases List.mem_cons.mp hr' with rfl | hmem
    · cases hres : r'.result with
      | response c dat =>
        rw [hres] at hbad'
        simp [Value.isResponse] at hbad'
      | nonResponseValue v => simp [serializeTxs, hres]
    · cases hres : r.result with
      | response c dat => simp [serializeTxs, hres, ih ⟨r', hmem, hbad'⟩]
      | nonResponseValue v => simp [serializeTxs, hres]

theorem send_ok (o : EventObserver) (fe : List (Txid × StacksTransactionEvent))
    (tip : ChainTip) (wf : Nat → Bool) (txs : List TxPayload)
    (hresp : serializeTxs 0 tip.receipts = some txs) (hw : wf o.endpoint = false) :
    EventObserver.send o fe tip wf =
      ([.connect o.endpoint, .deliver o.endpoint (mkPayload tip fe txs)], none) := by
  simp [EventObserver.send, hresp, hw]

theorem sendLoop_ok (events : List (Txid × StacksTransactionEvent)) (tip : ChainTip)
    (ord : List Nat → List Nat) (wf : Nat → Bool) (txs : List TxPayload)
    (hresp : serializeTxs 0 tip.receipts = some txs) :
    ∀ pairs : List (EventObserver × List Nat),
      (∀ p ∈ pairs, wf p.1.endpoint = false) →
      sendLoop events tip ord wf pairs =
        (pairs.flatMap (fun p => [Effect.connect p.1.endpoint,
          Effect.deliver p.1.endpoint
            (mkPayload tip ((ord p.2).map (fun i => events.getD i defaultEv)) txs)]),
         none) := by
  intro pairs
  induction pairs with
  | nil => intro _; rfl
  | cons p rest ih =>
    intro hw
    obtain ⟨o, row⟩ := p
    simp only [sendLoop]
    rw [send_ok o _ tip wf txs hresp (hw (o, row) (by simp))]
    rw [ih (fun q hq => hw q (by simp [hq]))]
    simp

theorem sendLoop_nonresponse (events : List (Txid × StacksTransactionEvent))
    (tip : ChainTip) (ord : List Nat → List Nat) (wf : Nat → Bool)
    (o : EventObserver) (row : List Nat) (rest : List (EventObserver × List Nat))
    (hnone : serializeTxs 0 tip.receipts = none) :
    sendLoop events tip ord wf ((o, row) :: rest) =
      ([.connect o.endpoint], some .nonResponseResult) := by
  simp [sendLoop, EventObserver.send, hnone]

theorem sendLoop_first_fail (events : List (Txid × StacksTransactionEvent))
    (tip : ChainTip) (ord : List Nat → List Nat) (wf : Nat → Bool) (txs : List TxPayload)
    (hresp : serializeTxs 0 tip.receipts = some txs) :
    ∀ (pairs : List (EventObserver × List Nat)) (k : Nat), k < pairs.length →
      wf ((pairs.getD k (⟨0⟩, [])).1.endpoint) = true →
      (∀ j, j < k → wf ((pairs.getD j (⟨0⟩, [])).1.endpoint) = false) →
      sendLoop events tip ord wf pairs =
        ((pairs.take k).flatMap (fun p => [Effect.connect p.1.endpoint,
          Effect.deliver p.1.endpoint
            (mkPayload tip ((ord p.2).map (fun i => events.getD i defaultEv)) txs)]) ++
          [Effect.connect ((pairs.getD k (⟨0⟩, [])).1.endpoint)],
         some .sendFailed) := by
  intro pairs
  induction pairs with
  | nil =>
    intro k hk _ _
    simp at hk
  | cons p rest ih =>
    intro k hk hfail hok
    obtain ⟨o, row⟩ := p
    cases k with
    | zero =>
      simp only [List.getD_cons_zero] at hfail ⊢
      simp [sendLoop, EventObserver.send, hresp, hfail]
    | succ k =>
      have h0 : wf o.endpoint = false := by simpa using hok 0 (Nat.succ_pos k)
      simp only [sendLoop]
      rw [send_ok o _ tip wf txs hresp h0]
      rw [ih k (by simpa using hk) (by simpa using hfail)
        (fun j hj => by simpa using hok (j + 1) (by omega))]
      simp

end Dispatch

namespace Dispatch

theorem pairs_length (d : EventDispatcher) (rs : List StacksTransactionReceipt) :
    (d.registered_observers.zip (buildDispatch d rs).1).length =
      d.registered_observers.length := by
  rw [List.length_zip, buildDispatch_len]
  simp

theorem pairs_getD (d : EventDispatcher) (rs : List StacksTransactionReceipt)
    (o : Nat) (ho : o < d.registered_observers.length) :
    (d.registered_observers.zip (buildDispatch d rs).1).getD o (⟨0⟩, []) =
      (d.registered_observers.getD o ⟨0⟩, getRow (buildDispatch d rs).1 o) := by
  have hlen := buildDispatch_len d rs
  have hz : o < (d.registered_observers.zip (buildDispatch d rs).1).length := by
    rw [pairs_length]
    exact ho
  rw [List.getD_eq_getElem _ _ hz, List.getElem_zip, List.getD_eq_getElem _ _ ho]
  unfold getRow
  rw [List.getD_eq_getElem _ _ (by rw [hlen]; exact ho)]

theorem trace_deliver_mem (d : EventDispatcher) (tip : ChainTip)
    (ord : List Nat → List Nat) (wf : Nat → Bool) (txs : List TxPayload)
    (hresp : serializeTxs 0 tip.receipts = some txs)
    (hwf : ∀ e, wf e = false) (o : Nat) (ho : o < d.registered_observers.length) :
    Effect.deliver (d.registered_observers.getD o ⟨0⟩).endpoint
      (mkPayload tip
        ((ord (getRow (buildDispatch d tip.receipts).1 o)).map
          (fun i => (buildDispatch d tip.receipts).2.1.getD i defaultEv)) txs) ∈
      (process_chain_tip d tip ord wf).1 := by
  have hloop := sendLoop_ok (buildDispatch d tip.receipts).2.1 tip ord wf txs hresp
    (d.registered_observers.zip (buildDispatch d tip.receipts).1) (fun p _ => hwf _)
  show Effect.deliver _ _ ∈ (sendLoop (buildDispatch d tip.receipts).2.1 tip ord wf
    (d.registered_observers.zip (buildDispatch d tip.receipts).1)).1
  rw [hloop]
  apply List.mem_flatMap.mpr
  refine ⟨(d.registered_observers.getD o ⟨0⟩, getRow (buildDispatch d tip.receipts).1 o),
    ?_, by simp⟩
  rw [← pairs_getD d tip.receipts o ho]
  have hz : o < (d.registered_observers.zip (buildDispatch d tip.receipts).1).length := by
    rw [pairs_length]
    exact ho
  rw [List.getD_eq_getElem _ _ hz]
  exact List.getElem_mem _

/-- Claim C1 (amended): `process_chain_tip` performs no empty-row check: every
registered observer is sent a payload for every processed chain tip (assuming
every transaction result is a response and no write fails), and an observer
whose dispatch-matrix row is empty still receives a payload, with an empty
events list, rather than receiving nothing. -/
theorem c1_every_observer_receives (d : EventDispatcher) (tip : ChainTip)
    (ord : List Nat → List Nat) (wf : Nat → Bool) (txs : List TxPayload)
    (hresp : serializeTxs 0 tip.receipts = some txs)
    (hwf : ∀ e, wf e = false) (hperm : ∀ l, (ord l).Perm l)
    (o : Nat) (ho : o < d.registered_observers.length) :
    Effect.deliver (d.registered_observers.getD o ⟨0⟩).endpoint
      (mkPayload tip
        ((ord (getRow (buildDispatch d tip.receipts).1 o)).map
          (fun i => (buildDispatch d tip.receipts).2.1.getD i defaultEv)) txs) ∈
      (process_chain_tip d tip ord wf).1 ∧
    (getRow (buildDispatch d tip.receipts).1 o = [] →
      (ord (getRow (buildDispatch d tip.receipts).1 o)).map
        (fun i => (buildDispatch d tip.receipts).2.1.getD i defaultEv) = []) := by
  refine ⟨trace_deliver_mem d tip ord wf txs hresp hwf o ho, ?_⟩
  intro hrow
  rw [hrow, (hperm []).eq_nil]
  rfl

/-- Claim C1 counterexample: a single observer subscribed only to STX events,
and a chain tip with no receipts at all, so the observer's dispatch-matrix row
is empty; the code nevertheless connects and delivers a payload (with an empty
events list) to it, refuting "an observer whose row is empty receives no
payload". -/
theorem c1_counterexample :
    getRow (buildDispatch ⟨[⟨0⟩], [], [], [0], []⟩ ([] : List StacksTransactionReceipt)).1 0 =
      [] ∧
    process_chain_tip ⟨[⟨0⟩], [], [], [0], []⟩ ⟨1, 2, 3, 4, 5, []⟩
        (fun l => l) (fun _ => false) =
      ([Effect.connect 0, Effect.deliver 0 ⟨1, 2, 3, 4, 5, [], []⟩], none) := by
  refine ⟨by decide, by decide⟩

theorem c1_witness :
    Effect.deliver 0 (⟨1, 2, 3, 4, 5, [], []⟩ : Payload) ∈
      (process_chain_tip ⟨[⟨0⟩], [], [], [0], []⟩ ⟨1, 2, 3, 4, 5, []⟩
        (fun l => l) (fun _ => false)).1 :=
  (c1_every_observer_receives ⟨[⟨0⟩], [], [], [0], []⟩ ⟨1, 2, 3, 4, 5, []⟩ (fun l => l)
    (fun _ => false) [] rfl (fun _ => rfl) (fun l => List.Perm.refl l) 0 (by decide)).1

/-- Claim C2 (amended): the payload delivered to each observer contains exactly
those event positions of the block that match at least one of the observer's
subscribed patterns, and each matching position appears exactly once even when
the event matches several patterns; however, the events are listed in the
`HashSet` row's iteration order, which is unspecified and NOT guaranteed to be
the block's position order. -/
theorem c2_payload_exact_match (d : EventDispatcher) (tip : ChainTip)
    (ord : List Nat → List Nat) (wf : Nat → Bool) (txs : List TxPayload)
    (hresp : serializeTxs 0 tip.receipts = some txs)
    (hwf : ∀ e, wf e = false) (hperm : ∀ l, (ord l).Perm l)
    (o : Nat) (ho : o < d.registered_observers.length) :
    Effect.deliver (d.registered_observers.getD o ⟨0⟩).endpoint
      (mkPayload tip
        ((ord (getRow (buildDispatch d tip.receipts).1 o)).map
          (fun i => (buildDispatch d tip.receipts).2.1.getD i defaultEv)) txs) ∈
      (process_chain_tip d tip ord wf).1 ∧
    (ord (getRow (buildDispatch d tip.receipts).1 o)).Nodup ∧
    (∀ j, j ∈ ord (getRow (buildDispatch d tip.receipts).1 o) ↔
      (j < (flattenEvents tip.receipts).length ∧
        obsMatches d o ((flattenEvents tip.receipts).getD j defaultEv).2)) := by
  refine ⟨trace_deliver_mem d tip ord wf txs hresp hwf o ho, ?_, ?_⟩
  · exact ((hperm _).nodup_iff).mpr (buildDispatch_nodup d tip.receipts o)
  · intro j
    rw [(hperm _).mem_iff, buildDispatch_mem]
    constructor
    · rintro ⟨_, hj, hm⟩
      exact ⟨hj, hm⟩
    · rintro ⟨hj, hm⟩
      exact ⟨ho, hj, hm⟩

/-- Claim C2 counterexample: one observer subscribed to `AnyEvent`, a block
with two STX events.  `List.reverse` is a legitimate instantiation of the
unspecified `HashSet` iteration order (it is a permutation of the row), and
under it the delivered payload lists the two events in reverse of the block's
position order — refuting "listed in the block's global position order". -/
theorem c2_counterexample :
    process_chain_tip ⟨[⟨0⟩], [], [], [], [0]⟩
        ⟨1, 2, 3, 4, 5,
          [⟨⟨7, []⟩, .response true 0,
            [.sTXEvent .sTXTransferEvent, .sTXEvent .sTXMintEvent], none⟩]⟩
        List.reverse (fun _ => false) =
      ([Effect.connect 0,
        Effect.deliver 0 ⟨1, 2, 3, 4, 5,
          [(7, .sTXEvent .sTXMintEvent), (7, .sTXEvent .sTXTransferEvent)],
          [⟨7, 0, true, 0, [], none⟩]⟩], none) ∧
    ([(7, StacksTransactionEvent.sTXEvent .sTXMintEvent),
      (7, StacksTransactionEvent.sTXEvent .sTXTransferEvent)] :
        List (Txid × StacksTransactionEvent)) ≠
      [(7, .sTXEvent .sTXTransferEvent), (7, .sTXEvent .sTXMintEvent)] := by
  refine ⟨by decide, by decide⟩

theorem c2_witness :
    Effect.deliver 0
      (⟨1, 2, 3, 4, 5,
        [(7, .sTXEvent .sTXTransferEvent), (7, .sTXEvent .sTXMintEvent)],
        [⟨7, 0, true, 0, [], none⟩]⟩ : Payload) ∈
      (process_chain_tip ⟨[⟨0⟩], [], [], [], [0]⟩
        ⟨1, 2, 3, 4, 5,
          [⟨⟨7, []⟩, .response true 0,
            [.sTXEvent .sTXTransferEvent, .sTXEvent .sTXMintEvent], none⟩]⟩
        (fun l => l) (fun _ => false)).1 :=
  (c2_payload_exact_match ⟨[⟨0⟩], [], [], [], [0]⟩
    ⟨1, 2, 3, 4, 5,
      [⟨⟨7, []⟩, .response true 0,
        [.sTXEvent .sTXTransferEvent, .sTXEvent .sTXMintEvent], none⟩]⟩
    (fun l => l) (fun _ => false) [⟨7, 0, true, 0, [], none⟩] rfl (fun _ => rfl)
    (fun l => List.Perm.refl l) 0 (by decide)).1

/-- Claim C3 (amended): when a receipt carries a non-response result and at
least one observer is registered, `process_chain_tip` panics at the
`unreachable` while assembling the payload for the first observer — after a
TCP connection to that observer has already been opened — and no payload is
delivered to any observer.  (The claim's "no connection is opened to any
observer endpoint" is refuted: the connect happens before the panic; and with
zero observers no abort happens at all.) -/
theorem c3_nonresponse_panics_after_connect (d : EventDispatcher) (tip : ChainTip)
    (ord : List Nat → List Nat) (wf : Nat → Bool)
    (hbad : ∃ r ∈ tip.receipts, r.result.isResponse = false)
    (hobs : d.registered_observers ≠ []) :
    (process_chain_tip d tip ord wf).2 = some PanicReason.nonResponseResult ∧
    (process_chain_tip d tip ord wf).1 =
      [Effect.connect (d.registered_observers.getD 0 ⟨0⟩).endpoint] ∧
    ∀ ep pl, Effect.deliver ep pl ∉ (process_chain_tip d tip ord wf).1 := by
  have hnone := serializeTxs_none tip.receipts hbad 0
  obtain ⟨o0, obs, hobs_eq⟩ := List.exists_cons_of_ne_nil hobs
  have hlen := buildDispatch_len d tip.receipts
  rw [hobs_eq] at hlen
  obtain ⟨r0, mrest, hm_eq⟩ : ∃ r0 mrest, (buildDispatch d tip.receipts).1 = r0 :: mrest := by
    cases hm : (buildDispatch d tip.receipts).1 with
    | nil =>
      rw [hm] at hlen
      simp at hlen
    | cons a t => exact ⟨a, t, rfl⟩
  have hproc : process_chain_tip d tip ord wf =
      ([Effect.connect o0.endpoint], some .nonResponseResult) := by
    show sendLoop (buildDispatch d tip.receipts).2.1 tip ord wf
        (d.registered_observers.zip (buildDispatch d tip.receipts).1) = _
    rw [hobs_eq, hm_eq, List.zip_cons_cons]
    exact sendLoop_nonresponse _ tip ord wf o0 r0 _ hnone
  refine ⟨by rw [hproc], ?_, ?_⟩
  · rw [hproc, hobs_eq]
    simp
  · intro ep pl
    rw [hproc]
    simp

/-- Claim C3 counterexample: one observer, one receipt with a non-response
result — the dispatcher panics, but only after opening a connection to the
observer's endpoint, refuting "no connection is opened to any observer
endpoint". -/
theorem c3_counterexample :
    process_chain_tip ⟨[⟨0⟩], [], [], [], []⟩
        ⟨1, 2, 3, 4, 5, [⟨⟨7, []⟩, .nonResponseValue 0, [], none⟩]⟩
        (fun l => l) (fun _ => false) =
      ([Effect.connect 0], some PanicReason.nonResponseResult) ∧
    Effect.connect 0 ∈
      (process_chain_tip ⟨[⟨0⟩], [], [], [], []⟩
        ⟨1, 2, 3, 4, 5, [⟨⟨7, []⟩, .nonResponseValue 0, [], none⟩]⟩
        (fun l => l) (fun _ => false)).1 := by
  refine ⟨by decide, by decide⟩

theorem c3_witness :
    (process_chain_tip ⟨[⟨0⟩], [], [], [], []⟩
        ⟨1, 2, 3, 4, 5, [⟨⟨7, []⟩, .nonResponseValue 0, [], none⟩]⟩
        (fun l => l) (fun _ => false)).2 = some PanicReason.nonResponseResult ∧
    (process_chain_tip ⟨[⟨0⟩], [], [], [], []⟩
        ⟨1, 2, 3, 4, 5, [⟨⟨7, []⟩, .nonResponseValue 0, [], none⟩]⟩
        (fun l => l) (fun _ => false)).1 = [Effect.connect 0] :=
  ⟨(c3_nonresponse_panics_after_connect ⟨[⟨0⟩], [], [], [], []⟩
      ⟨1, 2, 3, 4, 5, [⟨⟨7, []⟩, .nonResponseValue 0, [], none⟩]⟩
      (fun l => l) (fun _ => false) (by decide) (by decide)).1,
   (c3_nonresponse_panics_after_connect ⟨[⟨0⟩], [], [], [], []⟩
      ⟨1, 2, 3, 4, 5, [⟨⟨7, []⟩, .nonResponseValue 0, [], none⟩]⟩
      (fun l => l) (fun _ => false) (by decide) (by decide)).2.1⟩

/-- Claim C4 (amended): a failed delivery does NOT leave the remaining
observers unaffected.  When the write to the first failing observer `k` fails
(all earlier ones succeeding), the dispatcher logs and then panics: the trace
ends at the connect to observer `k`, observers after `k` are never contacted,
and `process_chain_tip` aborts with the send-failure panic. -/
theorem c4_send_failure_aborts (d : EventDispatcher) (tip : ChainTip)
    (ord : List Nat → List Nat) (wf : Nat → Bool) (txs : List TxPayload) (k : Nat)
    (hresp : serializeTxs 0 tip.receipts = some txs)
    (hk : k < d.registered_observers.length)
    (hfail : wf ((d.registered_observers.getD k ⟨0⟩).endpoint) = true)
    (hok : ∀ j, j < k → wf ((d.registered_observers.getD j ⟨0⟩).endpoint) = false) :
    (process_chain_tip d tip ord wf).2 = some PanicReason.sendFailed ∧
    (process_chain_tip d tip ord wf).1 =
      ((d.registered_observers.zip (buildDispatch d tip.receipts).1).take k).flatMap
        (fun p => [Effect.connect p.1.endpoint,
          Effect.deliver p.1.endpoint
            (mkPayload tip ((ord p.2).map
              (fun i => (buildDispatch d tip.receipts).2.1.getD i defaultEv)) txs)]) ++
        [Effect.connect ((d.registered_observers.getD k ⟨0⟩).endpoint)] := by
  have hgd : ∀ j, j < d.registered_observers.length →
      ((d.registered_observers.zip (buildDispatch d tip.receipts).1).getD j (⟨0⟩, [])).1 =
        d.registered_observers.getD j ⟨0⟩ := by
    intro j hj
    rw [pairs_getD d tip.receipts j hj]
  have hkz : k < (d.registered_observers.zip (buildDispatch d tip.receipts).1).length := by
    rw [pairs_length]
    exact hk
  have hloop := sendLoop_first_fail (buildDispatch d tip.receipts).2.1 tip ord wf txs hresp
    (d.registered_observers.zip (buildDispatch d tip.receipts).1) k hkz
    (by rw [hgd k hk]; exact hfail)
    (fun j hj => by rw [hgd j (by omega)]; exact hok j hj)
  constructor
  · show (sendLoop (buildDispatch d tip.receipts).2.1 tip ord wf
        (d.registered_observers.zip (buildDispatch d tip.receipts).1)).2 = _
    rw [hloop]
  · show (sendLoop (buildDispatch d tip.receipts).2.1 tip ord wf
        (d.registered_observers.zip (buildDispatch d tip.receipts).1)).1 = _
    rw [hloop, hgd k hk]

/-- Claim C4 counterexample: two observers; the write to the first one fails.
The dispatcher panics immediately after that failure: the second observer is
never connected to nor delivered to, refuting "still attempts delivery to
every remaining observer" and "does not abort process_chain_tip". -/
theorem c4_counterexample :
    process_chain_tip ⟨[⟨0⟩, ⟨1⟩], [], [], [], []⟩ ⟨1, 2, 3, 4, 5, []⟩
        (fun l => l) (fun e => e == 0) =
      ([Effect.connect 0], some PanicReason.sendFailed) ∧
    Effect.connect 1 ∉
      (process_chain_tip ⟨[⟨0⟩, ⟨1⟩], [], [], [], []⟩ ⟨1, 2, 3, 4, 5, []⟩
        (fun l => l) (fun e => e == 0)).1 := by
  refine ⟨by decide, by decide⟩

theorem c4_witness :
    (process_chain_tip ⟨[⟨0⟩, ⟨1⟩], [], [], [], []⟩ ⟨1, 2, 3, 4, 5, []⟩
        (fun l => l) (fun e => e == 0)).2 = some PanicReason.sendFailed ∧
    (process_chain_tip ⟨[⟨0⟩, ⟨1⟩], [], [], [], []⟩ ⟨1, 2, 3, 4, 5, []⟩
        (fun l => l) (fun e => e == 0)).1 = [Effect.connect 0] :=
  ⟨(c4_send_failure_aborts ⟨[⟨0⟩, ⟨1⟩], [], [], [], []⟩ ⟨1, 2, 3, 4, 5, []⟩
      (fun l => l) (fun e => e == 0) [] 0 rfl (by decide) rfl
      (fun j hj => absurd hj (Nat.not_lt_zero j))).1,
   (c4_send_failure_aborts ⟨[⟨0⟩, ⟨1⟩], [], [], [], []⟩ ⟨1, 2, 3, 4, 5, []⟩
      (fun l => l) (fun e => e == 0) [] 0 rfl (by decide) rfl
      (fun j hj => absurd hj (Nat.not_lt_zero j))).2⟩

theorem addObserverKey_observers (i : Nat) (d : EventDispatcher) (k : EventKeyType) :
    (addObserverKey i d k).registered_observers = d.registered_observers := by
  cases k <;> rfl

theorem foldAddKeys_observers (i : Nat) (keys : List EventKeyType) :
    ∀ d : EventDispatcher,
      ((keys.foldl (addObserverKey i) d).registered_observers) = d.registered_observers := by
  induction keys with
  | nil => intro d; rfl
  | cons k keys ih =>
    intro d
    rw [List.foldl_cons, ih, addObserverKey_observers]

theorem register_observer_observers (d : EventDispatcher) (c : EventObserverConfig) :
    (register_observer d c).registered_observers =
      d.registered_observers ++ [⟨c.endpoint⟩] := by
  show ((c.events_keys.foldl (addObserverKey (observerIndexOf d)) d).registered_observers
      ++ [⟨c.endpoint⟩]) = _
  rw [foldAddKeys_observers]

theorem registerFold_length (cs : List EventObserverConfig) :
    ∀ d : EventDispatcher,
      ((cs.foldl register_observer d).registered_observers).length =
        d.registered_observers.length + cs.length := by
  induction cs with
  | nil => intro d; simp
  | cons c cs ih =>
    intro d
    rw [List.foldl_cons, ih, register_observer_observers]
    simp
    omega

theorem registerAll_length (cs : List EventObserverConfig) :
    (registerAll cs).registered_observers.length = cs.length := by
  rw [registerAll, registerFold_length]
  simp [EventDispatcher.new]

theorem assignedIndex_eq (cs : List EventObserverConfig) (n : Nat) (hn : n ≤ cs.length) :
    assignedIndex cs n = n % 2 ^ 16 := by
  rw [assignedIndex, observerIndexOf, registerAll_length, List.length_take]
  congr 1
  omega

/-- Claim C9 (amended): the n-th registration (counting from 0) is assigned the
observer index n mod 2^16, because `registered_observers.len() as u16`
truncates; for the first 2^16 registrations this index equals n, reflects
insertion order and is distinct from every earlier index, but from the
2^16-th registration on the indexes wrap around and are reused. -/
theorem c9_observer_index (cs : List EventObserverConfig) (n : Nat)
    (hn : n ≤ cs.length) :
    assignedIndex cs n = n % 2 ^ 16 ∧
    (n < 2 ^ 16 → (assignedIndex cs n = n ∧
      ∀ m, m < n → assignedIndex cs m ≠ assignedIndex cs n)) := by
  refine ⟨assignedIndex_eq cs n hn, fun hlt => ⟨?_, ?_⟩⟩
  · rw [assignedIndex_eq cs n hn, Nat.mod_eq_of_lt hlt]
  · intro m hm
    rw [assignedIndex_eq cs n hn, Nat.mod_eq_of_lt hlt,
      assignedIndex_eq cs m (by omega), Nat.mod_eq_of_lt (by omega)]
    omega

/-- Claim C9 counterexample: at the 65536-th registration (counting from 0)
the `as u16` cast wraps around: the assigned index is 0, not 65536, and it
collides with the index assigned to the very first observer — indexes are
reused, refuting the claim for sequences longer than 2^16. -/
theorem c9_counterexample :
    assignedIndex (List.replicate 65537 ⟨0, []⟩) 65536 = 0 ∧
    assignedIndex (List.replicate 65537 ⟨0, []⟩) 0 = 0 ∧
    (65536 : Nat) ≠ 0 := by
  refine ⟨?_, ?_, by omega⟩
  · rw [assignedIndex_eq _ _ (by rw [List.length_replicate]; omega)]
    norm_num
  · rw [assignedIndex_eq _ _ (by rw [List.length_replicate]; omega)]
    norm_num

theorem c9_witness :
    assignedIndex [⟨0, []⟩, ⟨1, []⟩] 1 = 1 ∧
    assignedIndex [⟨0, []⟩, ⟨1, []⟩] 0 ≠ assignedIndex [⟨0, []⟩, ⟨1, []⟩] 1 :=
  ⟨((c9_observer_index [⟨0, []⟩, ⟨1, []⟩] 1 (by decide)).2 (by decide)).1,
   ((c9_observer_index [⟨0, []⟩, ⟨1, []⟩] 1 (by decide)).2 (by decide)).2 0 (by decide)⟩

end Dispatch
